import Mathlib

/-!
Verification of the daily-task repository's persistence service (server.js,
in its plain-pg and zod-validated variants, plus the drizzle variant) and of
the client-side grouping / optimistic-sync engine described by the spec.

Backend definitions are shallow embeddings of the route handlers in
server.js; the `items` table is a list of rows, a request body is a record
of optional JavaScript values, and each route is a pure function from
(body, table) to (table, response).
-/

/-- A JSON value, as exchanged over the HTTP boundary. -/
inductive JVal where
  | jnull : JVal
  | jstr : String → JVal
  | jnum : Int → JVal
  | jbool : Bool → JVal
deriving DecidableEq, Repr

/-- A JSON object: an ordered list of key/value pairs, as produced by
serializing a JavaScript object literal. -/
abbrev JObj := List (String × JVal)

/-- Key list of a JSON object. -/
def JObj.keys (o : JObj) : List String := o.map Prod.fst

/-- Field lookup in a JSON object. -/
def JObj.get (o : JObj) (k : String) : Option JVal :=
  (List.find? (fun p => p.fst == k) o).map Prod.snd

/-- `true` iff the string has the exact shape `YYYY-MM-DD`:
ten characters, digits in the date positions, dashes at indices 4 and 7.
This is the calendar-date text the spec requires at the boundary and the
shape checked by the zod schemas' `dueDate` regular expression. -/
def isDateText (s : String) : Bool :=
  match s.toList with
  | [y1, y2, y3, y4, d1, m1, m2, d2, a1, a2] =>
    y1.isDigit && y2.isDigit && y3.isDigit && y4.isDigit &&
    d1 = '-' && m1.isDigit && m2.isDigit && d2 = '-' && a1.isDigit && a2.isDigit
  | _ => false

/-- A row of the `items` table (columns of the CREATE TABLE in server.js).
`due_date` is the stored DATE rendered as canonical `YYYY-MM-DD` text;
`created_at` is the stored timestamp as ISO text. -/
structure Row where
  id : Nat
  text : String
  completed : Bool
  created_at : String
  type : String
  category : String
  priority : String
  due_date : Option String
  notes : String
  sort_order : Int
  user_id : String
deriving DecidableEq, Repr

/-- An item as supplied in a POST /api/items request body.  `none` models a
JavaScript `undefined`/`null` field; the string fields may also carry `""`
and the numeric field `0`, which the handlers treat as falsy. -/
structure ReqItem where
  id : Nat
  text : String
  completed : Option Bool
  createdAt : Option String
  type : Option String
  category : Option String
  priority : Option String
  dueDate : Option String
  notes : Option String
  order : Option Int
deriving DecidableEq, Repr

/-- JavaScript `s || default` for an optional string: absent or empty
strings are falsy and fall to the default. -/
def strOr (v : Option String) (dflt : String) : String :=
  match v with
  | none => dflt
  | some s => if s = "" then dflt else s

/-- JavaScript `s || null` for the dueDate field: absent or empty strings
become SQL NULL. -/
def dateOrNull (v : Option String) : Option String :=
  match v with
  | none => none
  | some s => if s = "" then none else some s

/-- JavaScript `n || 0` for the order field (0 is falsy and maps to 0, so
this coincides with defaulting an absent value). -/
def intOr0 (v : Option Int) : Int :=
  match v with
  | none => 0
  | some n => if n = 0 then 0 else n

/-- JavaScript `b || false` for the completed field. -/
def boolOrFalse (v : Option Bool) : Bool :=
  match v with
  | none => false
  | some b => b

/-- The row INSERTed by POST /api/items for one supplied item
(server.js lines 144-162): each optional / falsy field falls to its
default, `createdAt` falls to the current time `now`, and the row is
stamped with the requesting user's id. -/
def insertRow (now userId : String) (it : ReqItem) : Row :=
  { id := it.id
    text := it.text
    completed := boolOrFalse it.completed
    created_at := strOr it.createdAt now
    type := strOr it.type "task"
    category := strOr it.category "personal"
    priority := strOr it.priority "medium"
    due_date := dateOrNull it.dueDate
    notes := strOr it.notes ""
    sort_order := intOr0 it.order
    user_id := userId }

/-- A response from an items route: the JSON payload plus status. -/
inductive Resp where
  | okRows : List Row → Resp      -- 200, array of raw RETURNING * rows
  | okRow : Row → Resp            -- 200, one raw RETURNING * row
  | okItems : List JObj → Resp    -- 200, mapped item representations
  | okSuccess : Resp              -- 200, `success: true`
  | badRequest : List String → Resp  -- 400 with validation details
  | notFound : Resp               -- 404
  | err : Resp                    -- 500
deriving DecidableEq, Repr

/-- HTTP status code of a response. -/
def Resp.status : Resp → Nat
  | .okRows _ => 200
  | .okRow _ => 200
  | .okItems _ => 200
  | .okSuccess => 200
  | .badRequest _ => 400
  | .notFound => 404
  | .err => 500

/-- A POST /api/items body is a single item object or an array of them. -/
inductive PostBody where
  | one : ReqItem → PostBody
  | many : List ReqItem → PostBody
deriving DecidableEq, Repr

/-- `Array.isArray(req.body) ? req.body : [req.body]` (server.js line 139). -/
def normalizeBody : PostBody → List ReqItem
  | .one it => [it]
  | .many its => its

/-- The INSERT loop of POST /api/items inside its transaction: insert the
rows one by one, failing (primary-key conflict) when an id is already
present, and collect the RETURNING * rows in order.  `none` models the
thrown error that triggers ROLLBACK. -/
def postGo (now userId : String) : List ReqItem → List Row → Option (List Row × List Row)
  | [], tbl => some (tbl, [])
  | it :: rest, tbl =>
    let r := insertRow now userId it
    if tbl.any (fun x => x.id == r.id) then none
    else
      match postGo now userId rest (tbl ++ [r]) with
      | none => none
      | some (t, rs) => some (t, r :: rs)

/-- POST /api/items (server.js lines 137-174): normalize the body to a
list, run all INSERTs in one transaction, answer the inserted rows in input
order on COMMIT, and leave the table untouched with a 500 on ROLLBACK. -/
def postItems (now userId : String) (body : PostBody) (tbl : List Row) :
    List Row × Resp :=
  match postGo now userId (normalizeBody body) tbl with
  | none => (tbl, Resp.err)
  | some (t, rs) => (t, Resp.okRows rs)

/-- An item in the camelCase representation the GET route maps rows to
(server.js lines 117-128). -/
structure Item where
  id : Nat
  text : String
  completed : Bool
  createdAt : String
  type : String
  category : String
  priority : String
  dueDate : Option String
  notes : String
  order : Int
deriving DecidableEq, Repr

/-- The row-to-item mapping of GET /api/items (server.js lines 117-128):
`due_date.toISOString().split('T')[0]` recovers the stored date text, and
null maps to JSON null. -/
def rowToItem (r : Row) : Item :=
  { id := r.id
    text := r.text
    completed := r.completed
    createdAt := r.created_at
    type := r.type
    category := r.category
    priority := r.priority
    dueDate := r.due_date
    notes := r.notes
    order := r.sort_order }

/-- Serialization of a mapped item: the JSON object literal of the GET
route, with the spec's stable field names in source order. -/
def itemToJObj (it : Item) : JObj :=
  [("id", JVal.jnum it.id), ("text", JVal.jstr it.text),
   ("completed", JVal.jbool it.completed), ("createdAt", JVal.jstr it.createdAt),
   ("type", JVal.jstr it.type), ("category", JVal.jstr it.category),
   ("priority", JVal.jstr it.priority),
   ("dueDate", match it.dueDate with | none => JVal.jnull | some s => JVal.jstr s),
   ("notes", JVal.jstr it.notes), ("order", JVal.jnum it.order)]

/-- Serialization of a raw `RETURNING *` row, as `res.json` emits it from a
pg result: keys are the database column names, and a non-null DATE value is
a JavaScript Date that stringifies with a time component. -/
def rowToJObj (r : Row) : JObj :=
  [("id", JVal.jnum r.id), ("text", JVal.jstr r.text),
   ("completed", JVal.jbool r.completed), ("created_at", JVal.jstr r.created_at),
   ("type", JVal.jstr r.type), ("category", JVal.jstr r.category),
   ("priority", JVal.jstr r.priority),
   ("due_date", match r.due_date with
     | none => JVal.jnull
     | some s => JVal.jstr (s ++ "T00:00:00.000Z")),
   ("notes", JVal.jstr r.notes), ("sort_order", JVal.jnum r.sort_order),
   ("user_id", JVal.jstr r.user_id)]

/-- The spec's stable field names for an item record (§3). -/
def stableFields : List String :=
  ["id", "text", "completed", "createdAt", "type", "category", "priority",
   "dueDate", "notes", "order"]

/-- Generic insertion sort by a boolean `le`, used to embed SQL ORDER BY. -/
def insOne (le : α → α → Bool) (a : α) : List α → List α
  | [] => [a]
  | b :: bs => if le a b then a :: b :: bs else b :: insOne le a bs

/-- Insertion sort by a boolean `le`. -/
def insSortBy (le : α → α → Bool) : List α → List α
  | [] => []
  | a :: as => insOne le a (insSortBy le as)

/-- `ORDER BY sort_order ASC, created_at DESC` of the items queries. -/
def rowLe (r s : Row) : Bool :=
  r.sort_order < s.sort_order ||
    (r.sort_order == s.sort_order && decide (s.created_at ≤ r.created_at))

/-- GET /api/items (server.js lines 113-134): select the caller's rows,
order them, map each row to the stable representation and serialize. -/
def getItems (userId : String) (tbl : List Row) : List JObj :=
  (insSortBy rowLe (tbl.filter (fun r => r.user_id == userId))).map
    (fun r => itemToJObj (rowToItem r))

/-- The body of a single-item PUT (the eight mutable fields destructured at
server.js line 180).  The five fields the handler passes through unchanged
are plain values; the three it coerces are optional. -/
structure UpdBody where
  text : String
  completed : Bool
  type : String
  category : String
  priority : String
  dueDate : Option String
  notes : Option String
  order : Option Int
deriving DecidableEq, Repr

/-- The SET clause of the single-item and bulk UPDATE statements: replace
every mutable field, coercing `dueDate || null`, `notes || ''` and
`order || 0`; `id`, `created_at` and `user_id` are untouched. -/
def applyUpdate (b : UpdBody) (r : Row) : Row :=
  { r with
    text := b.text
    completed := b.completed
    type := b.type
    category := b.category
    priority := b.priority
    due_date := dateOrNull b.dueDate
    notes := strOr b.notes ""
    sort_order := intOr0 b.order }

/-- PUT /api/items/:id (server.js lines 177-195): UPDATE ... WHERE id AND
user_id RETURNING *; a request matching no row answers 404, otherwise the
matching row is replaced and the stored row is returned. -/
def putItem (userId : String) (iid : Nat) (b : UpdBody) (tbl : List Row) :
    List Row × Resp :=
  match tbl.find? (fun r => r.id == iid && r.user_id == userId) with
  | none => (tbl, Resp.notFound)
  | some r =>
    (tbl.map (fun x => if x.id == iid && x.user_id == userId then applyUpdate b x else x),
     Resp.okRow (applyUpdate b r))

/-- One element of a bulk PUT /api/items body: an id plus the full
replacement for the mutable fields. -/
structure BulkItem where
  id : Nat
  upd : UpdBody
deriving DecidableEq, Repr

/-- One UPDATE statement of the pg bulk route, scoped to the caller. -/
def applyBulkOne (userId : String) (bi : BulkItem) (tbl : List Row) : List Row :=
  tbl.map (fun r => if r.id == bi.id && r.user_id == userId then applyUpdate bi.upd r else r)

/-- One UPDATE statement of the drizzle bulk route (part_002 lines 136-146):
`where eq(items.id, item.id)` — no user scoping. -/
def applyBulkOneAnyUser (bi : BulkItem) (tbl : List Row) : List Row :=
  tbl.map (fun r => if r.id == bi.id then applyUpdate bi.upd r else r)

/-- The UPDATE loop of the pg bulk route inside its transaction.  `fail k`
says the k-th statement throws; a throw aborts the whole loop (`none`
models the error that triggers ROLLBACK). -/
def bulkPgGo (userId : String) (fail : Nat → Bool) :
    List BulkItem → Nat → List Row → Option (List Row)
  | [], _, tbl => some tbl
  | bi :: rest, k, tbl =>
    if fail k then none
    else bulkPgGo userId fail rest (k + 1) (applyBulkOne userId bi tbl)

/-- PUT /api/items, pg variant (server.js lines 197-220): BEGIN, per-item
UPDATEs, COMMIT and `success: true`; on any throw, ROLLBACK leaves the
table in its pre-request state and the response is 500. -/
def bulkUpdatePg (userId : String) (fail : Nat → Bool) (body : List BulkItem)
    (tbl : List Row) : List Row × Resp :=
  match bulkPgGo userId fail body 0 tbl with
  | none => (tbl, Resp.err)
  | some t => (t, Resp.okSuccess)

/-- The UPDATE loop of the drizzle bulk route: no transaction, so a throw
at statement k leaves the k already-executed updates applied. -/
def bulkDrizzleGo (fail : Nat → Bool) :
    List BulkItem → Nat → List Row → List Row × Bool
  | [], _, tbl => (tbl, true)
  | bi :: rest, k, tbl =>
    if fail k then (tbl, false)
    else bulkDrizzleGo fail rest (k + 1) (applyBulkOneAnyUser bi tbl)

/-- PUT /api/items, drizzle variant (part_002 lines 133-153): sequential
un-wrapped UPDATEs; `success: true` when all complete, 500 on a throw with
the prefix of updates left applied. -/
def bulkUpdateDrizzle (fail : Nat → Bool) (body : List BulkItem)
    (tbl : List Row) : List Row × Resp :=
  match bulkDrizzleGo fail body 0 tbl with
  | (t, true) => (t, Resp.okSuccess)
  | (t, false) => (t, Resp.err)

/-- Checker for a required zod string field with length bounds. -/
def checkStrField (o : JObj) (k : String) (lo hi : Nat) : Bool :=
  match o.get k with
  | some (JVal.jstr s) => lo ≤ s.length && s.length ≤ hi
  | _ => false

/-- Checker for a required zod enum field. -/
def checkEnumField (o : JObj) (k : String) (vals : List String) : Bool :=
  match o.get k with
  | some (JVal.jstr s) => vals.contains s
  | _ => false

/-- Checker for a required zod boolean field. -/
def checkBoolField (o : JObj) (k : String) : Bool :=
  match o.get k with
  | some (JVal.jbool _) => true
  | _ => false

/-- Checker for the `dueDate` schema
`z.string().regex(YYYY-MM-DD).nullable().optional()`. -/
def checkDueDateField (o : JObj) : Bool :=
  match o.get "dueDate" with
  | none => true
  | some JVal.jnull => true
  | some (JVal.jstr s) => isDateText s
  | some _ => false

/-- Checker for the optional `notes` schema `z.string().max(5000).optional()`. -/
def checkNotesField (o : JObj) : Bool :=
  match o.get "notes" with
  | none => true
  | some (JVal.jstr s) => s.length ≤ 5000
  | _ => false

/-- Checker for the optional `order` schema `z.number().int().min(0).optional()`. -/
def checkOrderField (o : JObj) : Bool :=
  match o.get "order" with
  | none => true
  | some (JVal.jnum n) => 0 ≤ n
  | _ => false

/-- The declared `itemUpdateSchema` of the zod-validated variant
(server.js lines 450-459), as the list of fields whose value fails it. -/
def itemUpdateErrors (o : JObj) : List String :=
  (if checkStrField o "text" 1 1000 then [] else ["text"]) ++
  (if checkBoolField o "completed" then [] else ["completed"]) ++
  (if checkEnumField o "type" ["task", "idea"] then [] else ["type"]) ++
  (if checkStrField o "category" 1 100 then [] else ["category"]) ++
  (if checkEnumField o "priority" ["high", "medium", "low"] then [] else ["priority"]) ++
  (if checkDueDateField o then [] else ["dueDate"]) ++
  (if checkNotesField o then [] else ["notes"]) ++
  (if checkOrderField o then [] else ["order"])

/-- The validated value `itemUpdateSchema.parse` yields on success. -/
def buildItemUpdate (o : JObj) : UpdBody :=
  { text := match o.get "text" with | some (JVal.jstr s) => s | _ => ""
    completed := match o.get "completed" with | some (JVal.jbool b) => b | _ => false
    type := match o.get "type" with | some (JVal.jstr s) => s | _ => ""
    category := match o.get "category" with | some (JVal.jstr s) => s | _ => ""
    priority := match o.get "priority" with | some (JVal.jstr s) => s | _ => ""
    dueDate := match o.get "dueDate" with | some (JVal.jstr s) => some s | _ => none
    notes := match o.get "notes" with | some (JVal.jstr s) => some s | _ => none
    order := match o.get "order" with | some (JVal.jnum n) => some n | _ => none }

/-- The `validate(schema)` middleware factory of the zod variant
(server.js lines 490-512): when the body fails the schema the request is
answered 400 with the validation details and the route handler is never
invoked, so the table is untouched; otherwise the handler runs on the
validated body. -/
def validateWith (errs : β → List String) (build : β → γ)
    (handler : γ → List Row → List Row × Resp) (b : β) (tbl : List Row) :
    List Row × Resp :=
  match errs b with
  | [] => handler (build b) tbl
  | es => (tbl, Resp.badRequest es)

/-- PUT /api/items/:id in the zod-validated variant (server.js line 661):
`validate(itemUpdateSchema)` in front of the update handler. -/
def putItemValidated (userId : String) (iid : Nat) (b : JObj) (tbl : List Row) :
    List Row × Resp :=
  validateWith itemUpdateErrors buildItemUpdate (putItem userId iid) b tbl

/-!  ## Client engine

The spec's Item Store / Grouping Engine / Sync Manager live in the
repository's index.html, which is not among the provided sources; the
definitions below are modelled from the spec (§3, §4.1, §4.2, §4.4) and
the grouping plan in witty-gathering-frog.md.  Calendar dates are embedded
as day numbers so that the date order is the chronological order. -/

/-- Modelled from the spec: a client-side item of the Item Store (§3);
index.html is missing from the sources.  `dueDate` is an optional calendar
date as a day number. -/
structure CItem where
  id : Nat
  text : String
  completed : Bool
  type : String
  category : String
  priority : String
  dueDate : Option Nat
  notes : String
  order : Int
deriving DecidableEq, Repr

/-- Modelled from the spec: the group key discriminator (§3). -/
inductive GroupKey where
  | overdue : GroupKey
  | date : Nat → GroupKey
  | nodate : GroupKey
deriving DecidableEq, Repr

/-- Modelled from the spec: group-key derivation (§3) — no dueDate gives
`nodate`, a dueDate strictly before today gives `overdue` (grouping
ignores completion), any other dueDate keys its own date group. -/
def groupKeyOf (today : Nat) (it : CItem) : GroupKey :=
  match it.dueDate with
  | none => GroupKey.nodate
  | some d => if d < today then GroupKey.overdue else GroupKey.date d

/-- Modelled from the spec: the active filters of the Grouping Engine
(§4.2) — an optional type filter, an optional category filter and the
showCompleted flag. -/
structure Filters where
  typeFilter : Option String
  categoryFilter : Option String
  showCompleted : Bool
deriving DecidableEq, Repr

/-- Modelled from the spec: whether an item survives the filters (§4.2);
completed items are hidden unless showCompleted. -/
def matchesFilters (f : Filters) (it : CItem) : Bool :=
  (match f.typeFilter with | none => true | some t => it.type == t) &&
  (match f.categoryFilter with | none => true | some c => it.category == c) &&
  (f.showCompleted || !it.completed)

/-- Modelled from the spec: within-group item order — ascending by `order`,
ties broken by `id` ascending (§4.2). -/
def citemLe (a b : CItem) : Bool :=
  a.order < b.order || (a.order == b.order && a.id ≤ b.id)

/-- Insert a date into an ascending duplicate-free date list. -/
def insertSortedDedup (d : Nat) : List Nat → List Nat
  | [] => [d]
  | e :: es =>
    if d < e then d :: e :: es
    else if d = e then e :: es
    else e :: insertSortedDedup d es

/-- The ascending duplicate-free list of the dates occurring in a list. -/
def sortedDates (l : List Nat) : List Nat := l.foldr insertSortedDedup []

/-- Modelled from the spec: a derived group (§3) — its key, the isToday /
isOverdue flags and its member items. -/
structure DateGroup where
  key : GroupKey
  isToday : Bool
  isOverdue : Bool
  items : List CItem
deriving DecidableEq, Repr

/-- Build the group for a key from its (already filtered) members. -/
def mkDateGroup (today : Nat) (k : GroupKey) (its : List CItem) : DateGroup :=
  { key := k
    isToday := k == GroupKey.date today
    isOverdue := k == GroupKey.overdue
    items := insSortBy citemLe its }

/-- Modelled from the spec: the Grouping Engine's `groupAndFilter` (§4.2
and witty-gathering-frog.md lines 59-64; index.html is missing from the
sources) — filter the items, then emit the overdue group when non-empty,
one group per distinct due date with items in ascending date order, and
the no-date group last when non-empty; empty groups are omitted. -/
def groupAndFilter (today : Nat) (items : List CItem) (f : Filters) : List DateGroup :=
  let fs := items.filter (matchesFilters f)
  let ov := fs.filter (fun it => groupKeyOf today it == GroupKey.overdue)
  let nd := fs.filter (fun it => groupKeyOf today it == GroupKey.nodate)
  let ds := sortedDates (fs.filterMap (fun it =>
    match groupKeyOf today it with | GroupKey.date d => some d | _ => none))
  (if ov.isEmpty then [] else [mkDateGroup today GroupKey.overdue ov]) ++
  ds.map (fun d => mkDateGroup today (GroupKey.date d)
    (fs.filter (fun it => groupKeyOf today it == GroupKey.date d))) ++
  (if nd.isEmpty then [] else [mkDateGroup today GroupKey.nodate nd])

/-- Modelled from the spec: the group key a reschedule target date lands
in (§3 applied to the new dueDate). -/
def destKey (today : Nat) (d : Option Nat) : GroupKey :=
  match d with
  | none => GroupKey.nodate
  | some x => if x < today then GroupKey.overdue else GroupKey.date x

/-- Modelled from the spec: the current maximum `order` among the members
of a group (0 when the group is empty). -/
def maxOrderInGroup (today : Nat) (k : GroupKey) (items : List CItem) : Int :=
  (items.filter (fun it => groupKeyOf today it == k)).foldl
    (fun m it => max m it.order) 0

/-- Modelled from the spec: applying a Reschedule intent (§4.1 `setDueDate`
plus the Drag Controller's placement; index.html is missing from the
sources) — the target item's dueDate becomes the new date and its order is
one past the current maximum order of the destination group; nothing else
changes. -/
def reschedule (today : Nat) (iid : Nat) (d : Option Nat) (items : List CItem) :
    List CItem :=
  let mx := maxOrderInGroup today (destKey today d)
    (items.filter (fun it => !(it.id == iid)))
  items.map (fun it =>
    if it.id = iid then { it with dueDate := d, order := mx + 1 } else it)

/-- Modelled from the spec: the Sync Manager's state (§4.4; index.html is
missing from the sources) — the Item Store, the latest issued sequence
number per item id, and the pre-mutation snapshot recorded for each issued
call. -/
structure MState where
  store : List CItem
  latest : List (Nat × Nat)
  pending : List ((Nat × Nat) × List CItem)
deriving DecidableEq, Repr

/-- Latest issued sequence number for an item id (0 before any issue). -/
def latestSeq (l : List (Nat × Nat)) (k : Nat) : Nat :=
  match l.find? (fun p => p.fst == k) with
  | some p => p.snd
  | none => 0

/-- Record a new latest sequence number for an item id. -/
def setSeq (l : List (Nat × Nat)) (k v : Nat) : List (Nat × Nat) :=
  (k, v) :: l.filter (fun p => !(p.fst == k))

/-- Modelled from the spec: issuing a Reschedule intent (§4.4) — snapshot
the store, apply the mutation optimistically, and issue the persistence
call under the next sequence number for the item. -/
def issueReschedule (today : Nat) (iid : Nat) (d : Option Nat) (s : MState) :
    MState :=
  let snap := s.store
  let sq := latestSeq s.latest iid + 1
  { store := reschedule today iid d s.store
    latest := setSeq s.latest iid sq
    pending := ((iid, sq), snap) :: s.pending }

/-- Restore the affected item from a snapshot (rollback per §4.4). -/
def restoreItem (iid : Nat) (snap cur : List CItem) : List CItem :=
  cur.map (fun it =>
    if it.id = iid then
      match snap.find? (fun x => x.id == iid) with
      | some old => old
      | none => it
    else it)

/-- Modelled from the spec: delivering a persistence response (§4.4) — a
response whose sequence number is not the latest issued for its item id is
discarded outright; the latest response is a no-op on success and restores
the pre-mutation snapshot for the affected item on failure. -/
def deliver (iid sq : Nat) (success : Bool) (s : MState) : MState :=
  if latestSeq s.latest iid == sq then
    if success then s
    else
      match s.pending.find? (fun p => p.fst == (iid, sq)) with
      | some p => { s with store := restoreItem iid p.snd s.store }
      | none => s
  else s

/-- dueDate of the item with a given id in a store. -/
def dueDateOf (iid : Nat) (items : List CItem) : Option (Option Nat) :=
  (items.find? (fun it => it.id == iid)).map CItem.dueDate

/-!  ## Helper lemmas -/

theorem mem_insOne {le : α → α → Bool} {x a : α} {l : List α} :
    a ∈ insOne le x l ↔ a = x ∨ a ∈ l := by
  induction l with
  | nil => simp [insOne]
  | cons b bs ih =>
    simp only [insOne]
    split
    · simp
    · simp only [List.mem_cons, ih]
      tauto

theorem mem_insSortBy {le : α → α → Bool} {a : α} {l : List α} :
    a ∈ insSortBy le l ↔ a ∈ l := by
  induction l with
  | nil => simp [insSortBy]
  | cons b bs ih => simp [insSortBy, mem_insOne, ih]

theorem insOne_ne_nil {le : α → α → Bool} {x : α} {l : List α} :
    insOne le x l ≠ [] := by
  cases l with
  | nil => simp [insOne]
  | cons b bs =>
    simp only [insOne]
    split <;> simp

theorem insSortBy_ne_nil {le : α → α → Bool} {l : List α} (h : l ≠ []) :
    insSortBy le l ≠ [] := by
  cases l with
  | nil => exact absurd rfl h
  | cons b bs => simpa [insSortBy] using insOne_ne_nil

theorem mem_insertSortedDedup {x d : Nat} {l : List Nat} :
    x ∈ insertSortedDedup d l ↔ x = d ∨ x ∈ l := by
  induction l with
  | nil => simp [insertSortedDedup]
  | cons e es ih =>
    simp only [insertSortedDedup]
    split
    · simp [List.mem_cons]
    · split
      · next hlt heq =>
        subst heq
        simp only [List.mem_cons]
        tauto
      · simp only [List.mem_cons, ih]
        tauto

theorem sorted_insertSortedDedup {d : Nat} {l : List Nat}
    (h : l.Pairwise (· < ·)) : (insertSortedDedup d l).Pairwise (· < ·) := by
  induction l with
  | nil => simp [insertSortedDedup]
  | cons e es ih =>
    rcases List.pairwise_cons.mp h with ⟨he, hes⟩
    simp only [insertSortedDedup]
    split
    · next hlt =>
      refine List.pairwise_cons.mpr ⟨?_, h⟩
      intro y hy
      rcases List.mem_cons.mp hy with rfl | hy
      · exact hlt
      · exact Nat.lt_trans hlt (he y hy)
    · split
      · exact h
      · next hnlt hne =>
        have hed : e < d := by omega
        refine List.pairwise_cons.mpr ⟨?_, ih hes⟩
        intro y hy
        rcases mem_insertSortedDedup.mp hy with rfl | hy
        · exact hed
        · exact he y hy

theorem mem_sortedDates {x : Nat} {l : List Nat} :
    x ∈ sortedDates l ↔ x ∈ l := by
  induction l with
  | nil => simp [sortedDates]
  | cons e es ih =>
    simp only [sortedDates, List.foldr_cons] at *
    rw [mem_insertSortedDedup, ih, List.mem_cons]

theorem sorted_sortedDates {l : List Nat} :
    (sortedDates l).Pairwise (· < ·) := by
  induction l with
  | nil => simp [sortedDates]
  | cons e es ih =>
    simpa [sortedDates, List.foldr_cons] using
      sorted_insertSortedDedup (by simpa [sortedDates] using ih)

/-- The database column names of a raw `items` row, in SELECT order. -/
def rawRowFields : List String :=
  ["id", "text", "completed", "created_at", "type", "category", "priority",
   "due_date", "notes", "sort_order", "user_id"]

theorem keys_itemToJObj (it : Item) : JObj.keys (itemToJObj it) = stableFields := rfl

theorem keys_rowToJObj (r : Row) : JObj.keys (rowToJObj r) = rawRowFields := rfl

/-!  ## Claim theorems -/

/-- Claim C10: POST /api/items stores each omitted or falsy optional field
with its fixed default — completed false, type 'task', category 'personal',
priority 'medium', dueDate NULL, notes '', order 0 and createdAt the
current time; in particular a supplied order of 0 and a supplied
empty-string dueDate are coerced to those defaults. -/
theorem post_item_defaults (now userId : String) (it : ReqItem) :
    ((it.completed = none ∨ it.completed = some false) →
      (insertRow now userId it).completed = false) ∧
    ((it.createdAt = none ∨ it.createdAt = some "") →
      (insertRow now userId it).created_at = now) ∧
    ((it.type = none ∨ it.type = some "") →
      (insertRow now userId it).type = "task") ∧
    ((it.category = none ∨ it.category = some "") →
      (insertRow now userId it).category = "personal") ∧
    ((it.priority = none ∨ it.priority = some "") →
      (insertRow now userId it).priority = "medium") ∧
    ((it.dueDate = none ∨ it.dueDate = some "") →
      (insertRow now userId it).due_date = none) ∧
    ((it.notes = none ∨ it.notes = some "") →
      (insertRow now userId it).notes = "") ∧
    ((it.order = none ∨ it.order = some 0) →
      (insertRow now userId it).sort_order = 0) := by
  refine ⟨?_, ?_, ?_, ?_, ?_, ?_, ?_, ?_⟩ <;> rintro (h | h) <;>
    simp [insertRow, strOr, dateOrNull, intOr0, boolOrFalse, h]

/-- Witness for `post_item_defaults` at a concrete request whose dueDate is
the empty string and whose order is 0. -/
theorem post_item_defaults_witness :
    (insertRow "2024-01-01T00:00:00.000Z" "user_1"
        ⟨7, "buy milk", none, none, none, none, none, some "", none, some 0⟩).due_date
      = none ∧
    (insertRow "2024-01-01T00:00:00.000Z" "user_1"
        ⟨7, "buy milk", none, none, none, none, none, some "", none, some 0⟩).sort_order
      = 0 :=
  ⟨(post_item_defaults "2024-01-01T00:00:00.000Z" "user_1"
      ⟨7, "buy milk", none, none, none, none, none, some "", none, some 0⟩).2.2.2.2.2.1
      (Or.inr rfl),
   (post_item_defaults "2024-01-01T00:00:00.000Z" "user_1"
      ⟨7, "buy milk", none, none, none, none, none, some "", none, some 0⟩).2.2.2.2.2.2.2
      (Or.inr rfl)⟩

/-- Claim C6: in the zod-validated variant, a request body that fails the
declared schema is answered 400 with the validation details and reaches no
route handler, so the table is never mutated; instantiated at the
itemUpdateSchema-guarded PUT /api/items/:id. -/
theorem validation_failure_rejects_before_mutation :
    (∀ (errs : JObj → List String) (build : JObj → UpdBody)
        (handler : UpdBody → List Row → List Row × Resp) (b : JObj) (tbl : List Row),
      errs b ≠ [] →
      validateWith errs build handler b tbl = (tbl, Resp.badRequest (errs b)) ∧
      (validateWith errs build handler b tbl).2.status = 400) ∧
    (∀ (userId : String) (iid : Nat) (b : JObj) (tbl : List Row),
      itemUpdateErrors b ≠ [] →
      putItemValidated userId iid b tbl = (tbl, Resp.badRequest (itemUpdateErrors b))) := by
  constructor
  · intro errs build handler b tbl hne
    unfold validateWith
    cases h : errs b with
    | nil => exact absurd h hne
    | cons e es => exact ⟨rfl, rfl⟩
  · intro userId iid b tbl hne
    unfold putItemValidated validateWith
    cases h : itemUpdateErrors b with
    | nil => exact absurd h hne
    | cons e es => simp [h]

/-- Witness for `validation_failure_rejects_before_mutation` at the empty
request body, which fails every required field of itemUpdateSchema. -/
theorem validation_failure_witness :
    itemUpdateErrors [] ≠ [] ∧
    putItemValidated "user_1" 1 [] []
      = ([], Resp.badRequest ["text", "completed", "type", "category", "priority"]) :=
  ⟨by decide,
   (validation_failure_rejects_before_mutation.2 "user_1" 1 [] [] (by decide)).trans
     (by decide)⟩

/-- The cumulative effect of the bulk UPDATE statements, in request order. -/
def bulkApplyAll (userId : String) (body : List BulkItem) (tbl : List Row) : List Row :=
  body.foldl (fun t bi => applyBulkOne userId bi t) tbl

theorem bulkPgGo_eq_none_iff (userId : String) (fail : Nat → Bool) :
    ∀ (body : List BulkItem) (k : Nat) (tbl : List Row),
      bulkPgGo userId fail body k tbl = none ↔ ∃ j < body.length, fail (k + j) = true := by
  intro body
  induction body with
  | nil => intro k tbl; simp [bulkPgGo]
  | cons bi rest ih =>
    intro k tbl
    simp only [bulkPgGo]
    split
    · next hf =>
      exact iff_of_true rfl ⟨0, by simp, by simpa using hf⟩
    · next hf =>
      rw [ih (k + 1)]
      constructor
      · rintro ⟨j, hj, hfj⟩
        exact ⟨j + 1, by simpa using Nat.succ_lt_succ hj,
          by rwa [show k + (j + 1) = k + 1 + j by omega]⟩
      · rintro ⟨j, hj, hfj⟩
        cases j with
        | zero => simp at hfj; exact absurd hfj (by simpa using hf)
        | succ j' =>
          exact ⟨j', by simp only [List.length_cons] at hj; omega,
            by rwa [show k + 1 + j' = k + (j' + 1) by omega]⟩

theorem bulkPgGo_eq_some (userId : String) (fail : Nat → Bool) :
    ∀ (body : List BulkItem) (k : Nat) (tbl : List Row),
      (∀ j < body.length, fail (k + j) = false) →
      bulkPgGo userId fail body k tbl = some (bulkApplyAll userId body tbl) := by
  intro body
  induction body with
  | nil => intro k tbl _; simp [bulkPgGo, bulkApplyAll]
  | cons bi rest ih =>
    intro k tbl hok
    have h0 : fail k = false := by simpa using hok 0 (by simp)
    simp only [bulkPgGo, h0, Bool.false_eq_true, if_false, bulkApplyAll, List.foldl_cons]
    exact ih (k + 1) (applyBulkOne userId bi tbl) fun j hj => by
      rw [show k + 1 + j = k + (j + 1) by omega]
      exact hok (j + 1) (by simpa using Nat.succ_lt_succ hj)

/-- Claim C9: the pg bulk-update route runs its per-item UPDATEs in one
transaction — if any statement throws the table is left in exactly its
pre-request state and the response is a 500 error; otherwise all updates
are applied and the response reports success. -/
theorem bulk_update_pg_transactional (userId : String) (fail : Nat → Bool)
    (body : List BulkItem) (tbl : List Row) :
    ((∃ j < body.length, fail j = true) →
      bulkUpdatePg userId fail body tbl = (tbl, Resp.err)) ∧
    ((∀ j < body.length, fail j = false) →
      bulkUpdatePg userId fail body tbl = (bulkApplyAll userId body tbl, Resp.okSuccess)) := by
  constructor
  · intro hex
    have : bulkPgGo userId fail body 0 tbl = none := by
      rw [bulkPgGo_eq_none_iff]
      simpa using hex
    simp [bulkUpdatePg, this]
  · intro hok
    have : bulkPgGo userId fail body 0 tbl = some (bulkApplyAll userId body tbl) :=
      bulkPgGo_eq_some userId fail body 0 tbl (by simpa using hok)
    simp [bulkUpdatePg, this]

/-- Witness for `bulk_update_pg_transactional`: a two-item request whose
second UPDATE throws leaves a one-row table untouched with a 500. -/
theorem bulk_update_pg_transactional_witness :
    bulkUpdatePg "user_1" (fun j => decide (j = 1))
      [⟨1, ⟨"a", false, "task", "personal", "medium", none, none, none⟩⟩,
       ⟨2, ⟨"b", false, "task", "personal", "medium", none, none, none⟩⟩]
      [⟨1, "x", false, "t0", "task", "personal", "medium", none, "", 0, "user_1"⟩]
      = ([⟨1, "x", false, "t0", "task", "personal", "medium", none, "", 0, "user_1"⟩],
         Resp.err) :=
  (bulk_update_pg_transactional "user_1" (fun j => decide (j = 1)) _ _).1
    ⟨1, by decide, by decide⟩

theorem postGo_some (now userId : String) :
    ∀ (its : List ReqItem) (tbl t : List Row) (rs : List Row),
      postGo now userId its tbl = some (t, rs) →
      t = tbl ++ its.map (insertRow now userId) ∧
      rs = its.map (insertRow now userId) := by
  intro its
  induction its with
  | nil =>
    intro tbl t rs h
    simp only [postGo, Option.some.injEq, Prod.mk.injEq] at h
    simp [← h.1, ← h.2]
  | cons it rest ih =>
    intro tbl t rs h
    simp only [postGo] at h
    split at h
    · exact absurd h (by simp)
    · cases hrec : postGo now userId rest (tbl ++ [insertRow now userId it]) with
      | none => rw [hrec] at h; exact absurd h (by simp)
      | some pr =>
        rw [hrec] at h
        obtain ⟨t', rs'⟩ := pr
        simp only [Option.some.injEq, Prod.mk.injEq] at h
        obtain ⟨hrec1, hrec2⟩ := ih (tbl ++ [insertRow now userId it]) t' rs' hrec
        constructor
        · rw [← h.1, hrec1]; simp
        · rw [← h.2, hrec2]; simp

theorem postGo_fresh (now userId : String) :
    ∀ (its : List ReqItem) (tbl : List Row),
      (its.map ReqItem.id).Nodup →
      (∀ it ∈ its, ∀ r ∈ tbl, r.id ≠ it.id) →
      postGo now userId its tbl
        = some (tbl ++ its.map (insertRow now userId), its.map (insertRow now userId)) := by
  intro its
  induction its with
  | nil => intro tbl _ _; simp [postGo]
  | cons it rest ih =>
    intro tbl hnd hfresh
    have hnd0 : (it.id :: rest.map ReqItem.id).Nodup := by simpa using hnd
    have hnd' := List.nodup_cons.mp hnd0
    have hnoc : tbl.any (fun x => x.id == (insertRow now userId it).id) = false := by
      rw [List.any_eq_false]
      intro x hx
      simpa [insertRow] using hfresh it (List.mem_cons_self it rest) x hx
    simp only [postGo, hnoc, Bool.false_eq_true, if_false]
    rw [ih (tbl ++ [insertRow now userId it]) hnd'.2]
    · simp
    · intro it' hit' r hr
      rcases List.mem_append.mp hr with hr | hr
      · exact hfresh it' (List.mem_cons_of_mem it hit') r hr
      · rcases List.mem_singleton.mp hr with rfl
        have : it.id ∉ rest.map ReqItem.id := hnd'.1
        simp only [insertRow]
        intro hco
        exact this (hco ▸ List.mem_map_of_mem ReqItem.id hit')

/-- Claim C7: POST /api/items accepts a single item or an array, and either
commits — storing one row per supplied item and answering the stored rows
one per supplied item in input order — or rolls the whole request back,
leaving the table untouched and answering 500; the commit case is reached
whenever the supplied ids are pairwise distinct and fresh. -/
theorem post_items_correct (now userId : String) (body : PostBody) (tbl : List Row) :
    (postItems now userId body tbl
        = (tbl ++ (normalizeBody body).map (insertRow now userId),
           Resp.okRows ((normalizeBody body).map (insertRow now userId)))
      ∨ postItems now userId body tbl = (tbl, Resp.err)) ∧
    (((normalizeBody body).map ReqItem.id).Nodup →
      (∀ it ∈ normalizeBody body, ∀ r ∈ tbl, r.id ≠ it.id) →
      postItems now userId body tbl
        = (tbl ++ (normalizeBody body).map (insertRow now userId),
           Resp.okRows ((normalizeBody body).map (insertRow now userId)))) := by
  constructor
  · cases h : postGo now userId (normalizeBody body) tbl with
    | none => right; simp [postItems, h]
    | some pr =>
      left
      obtain ⟨t, rs⟩ := pr
      obtain ⟨h1, h2⟩ := postGo_some now userId (normalizeBody body) tbl t rs h
      simp [postItems, h, h1, h2]
  · intro hnd hfresh
    simp [postItems, postGo_fresh now userId (normalizeBody body) tbl hnd hfresh]

/-- Witness for `post_items_correct`: a single-object body inserted into an
empty table commits and answers exactly one stored row. -/
theorem post_items_correct_witness :
    postItems "2024-01-01T00:00:00.000Z" "user_1"
        (PostBody.one ⟨7, "buy milk", none, none, none, none, none, none, none, none⟩) []
      = ([insertRow "2024-01-01T00:00:00.000Z" "user_1"
            ⟨7, "buy milk", none, none, none, none, none, none, none, none⟩],
         Resp.okRows [insertRow "2024-01-01T00:00:00.000Z" "user_1"
            ⟨7, "buy milk", none, none, none, none, none, none, none, none⟩]) :=
  (post_items_correct "2024-01-01T00:00:00.000Z" "user_1"
      (PostBody.one ⟨7, "buy milk", none, none, none, none, none, none, none, none⟩) []).2
    (by decide) (by intro it _ r hr; exact absurd hr (List.not_mem_nil r))

/-- Claim C2: PUT /api/items/:id answers 404 exactly when no item with the
given id belongs to the caller; otherwise the matching row has its mutable
fields fully replaced (with the handler's falsy coercions on dueDate,
notes and order), its id, creation time and owner are untouched, and the
stored row is returned.  Ids are unique in the table (primary key). -/
theorem put_item_not_found_iff (userId : String) (iid : Nat) (b : UpdBody)
    (tbl : List Row) (hnd : (tbl.map Row.id).Nodup) :
    ((putItem userId iid b tbl).2 = Resp.notFound ↔
      ∀ r ∈ tbl, ¬(r.id = iid ∧ r.user_id = userId)) ∧
    (∀ r ∈ tbl, r.id = iid → r.user_id = userId →
      (putItem userId iid b tbl).2 = Resp.okRow (applyUpdate b r) ∧
      (putItem userId iid b tbl).1
        = tbl.map (fun x =>
            if x.id == iid && x.user_id == userId then applyUpdate b x else x) ∧
      (applyUpdate b r).id = r.id ∧
      (applyUpdate b r).created_at = r.created_at ∧
      (applyUpdate b r).user_id = r.user_id ∧
      (applyUpdate b r).text = b.text ∧
      (applyUpdate b r).completed = b.completed ∧
      (applyUpdate b r).type = b.type ∧
      (applyUpdate b r).category = b.category ∧
      (applyUpdate b r).priority = b.priority ∧
      (applyUpdate b r).due_date = dateOrNull b.dueDate ∧
      (applyUpdate b r).notes = strOr b.notes "" ∧
      (applyUpdate b r).sort_order = intOr0 b.order) := by
  cases hfind : tbl.find? (fun r => r.id == iid && r.user_id == userId) with
  | none =>
    have hnone : ∀ r ∈ tbl, ¬(r.id = iid ∧ r.user_id = userId) := by
      intro r hr hcontra
      have := List.find?_eq_none.mp hfind r hr
      simp [hcontra.1, hcontra.2] at this
    constructor
    · have hresp : (putItem userId iid b tbl).2 = Resp.notFound := by
        simp [putItem, hfind]
      exact iff_of_true hresp hnone
    · intro r hr h1 h2
      exact absurd ⟨h1, h2⟩ (hnone r hr)
  | some r0 =>
    have hr0mem : r0 ∈ tbl := List.mem_of_find?_eq_some hfind
    have hr0p : r0.id = iid ∧ r0.user_id = userId := by
      have := List.find?_some hfind
      simpa using this
    constructor
    · simp only [putItem, hfind]
      exact iff_of_false (by simp) (fun h => h r0 hr0mem hr0p)
    · intro r hr h1 h2
      have hreq : r = r0 := by
        have hinj := List.inj_on_of_nodup_map hnd
        exact hinj hr hr0mem (by rw [h1, hr0p.1])
      subst hreq
      refine ⟨by simp [putItem, hfind], by simp [putItem, hfind], ?_⟩
      simp [applyUpdate]

/-- Witness for `put_item_not_found_iff`: updating the single row of a
one-row table owned by the caller succeeds and returns the stored row. -/
theorem put_item_not_found_iff_witness :
    (putItem "user_1" 1
        ⟨"new", true, "idea", "work", "high", some "2024-05-06", none, some 3⟩
        [⟨1, "old", false, "t0", "task", "personal", "medium", none, "", 0, "user_1"⟩]).2
      = Resp.okRow (applyUpdate
          ⟨"new", true, "idea", "work", "high", some "2024-05-06", none, some 3⟩
          ⟨1, "old", false, "t0", "task", "personal", "medium", none, "", 0, "user_1"⟩) :=
  ((put_item_not_found_iff "user_1" 1
      ⟨"new", true, "idea", "work", "high", some "2024-05-06", none, some 3⟩
      [⟨1, "old", false, "t0", "task", "personal", "medium", none, "", 0, "user_1"⟩]
      (by decide)).2
    ⟨1, "old", false, "t0", "task", "personal", "medium", none, "", 0, "user_1"⟩
    (List.mem_singleton.mpr rfl) rfl rfl).1

theorem get_dueDate_itemToJObj (it : Item) :
    (itemToJObj it).get "dueDate"
      = some (match it.dueDate with | none => JVal.jnull | some s => JVal.jstr s) := by
  rfl

/-- Claim C1 (amended): only the GET /api/items response carries the spec's
stable field names, with dueDate null or a YYYY-MM-DD text (given that the
DATE column stores canonical date texts); the representations returned by
POST /api/items and PUT /api/items/:id are raw database rows whose keys are
the snake_case column names (including user_id). -/
theorem api_record_fields (userId : String) (tbl : List Row)
    (hwf : ∀ r ∈ tbl, ∀ s, r.due_date = some s → isDateText s = true) :
    (∀ o ∈ getItems userId tbl,
      JObj.keys o = stableFields ∧
      (o.get "dueDate" = some JVal.jnull ∨
        ∃ s, o.get "dueDate" = some (JVal.jstr s) ∧ isDateText s = true)) ∧
    (∀ (now : String) (body : PostBody) (tbl2 rs : List Row),
      postItems now userId body tbl = (tbl2, Resp.okRows rs) →
      ∀ r ∈ rs, JObj.keys (rowToJObj r) = rawRowFields) ∧
    (∀ (iid : Nat) (b : UpdBody) (tbl2 : List Row) (r : Row),
      putItem userId iid b tbl = (tbl2, Resp.okRow r) →
      JObj.keys (rowToJObj r) = rawRowFields) := by
  refine ⟨?_, ?_, ?_⟩
  · intro o ho
    obtain ⟨r, hr, rfl⟩ := List.mem_map.mp ho
    have hrtbl : r ∈ tbl :=
      List.mem_of_mem_filter (mem_insSortBy.mp hr)
    refine ⟨keys_itemToJObj _, ?_⟩
    cases hd : r.due_date with
    | none =>
      left
      rw [get_dueDate_itemToJObj]
      simp [rowToItem, hd]
    | some s =>
      right
      refine ⟨s, ?_, hwf r hrtbl s hd⟩
      rw [get_dueDate_itemToJObj]
      simp [rowToItem, hd]
  · intro now body tbl2 rs _ r _
    exact keys_rowToJObj r
  · intro iid b tbl2 r _
    exact keys_rowToJObj r

/-- Witness for `api_record_fields` at a one-row table with a stored date:
the single GET record carries the stable field names and a YYYY-MM-DD
dueDate. -/
theorem api_record_fields_witness :
    JObj.keys (itemToJObj (rowToItem
        ⟨1, "x", false, "t0", "task", "personal", "medium", some "2024-03-05", "", 0, "user_1"⟩))
      = stableFields ∧
    ((itemToJObj (rowToItem
        ⟨1, "x", false, "t0", "task", "personal", "medium", some "2024-03-05", "", 0, "user_1"⟩)).get "dueDate"
        = some JVal.jnull ∨
      ∃ s, (itemToJObj (rowToItem
        ⟨1, "x", false, "t0", "task", "personal", "medium", some "2024-03-05", "", 0, "user_1"⟩)).get "dueDate"
          = some (JVal.jstr s) ∧ isDateText s = true) :=
  (api_record_fields "user_1"
      [⟨1, "x", false, "t0", "task", "personal", "medium", some "2024-03-05", "", 0, "user_1"⟩]
      (by decide)).1
    (itemToJObj (rowToItem
      ⟨1, "x", false, "t0", "task", "personal", "medium", some "2024-03-05", "", 0, "user_1"⟩))
    (by decide)

/-- Counterexample to claim C1 as stated: a concrete POST /api/items
returns the raw inserted row, whose serialization does not carry the
stable field names (no `dueDate` key — the raw `due_date` instead, whose
value moreover carries a time component). -/
theorem api_record_fields_counterexample :
    (postItems "2024-01-02T03:04:05.000Z" "user_1"
        (PostBody.one ⟨1, "hello", none, none, none, none, none, some "2024-03-05", none, none⟩)
        []).2
      = Resp.okRows [⟨1, "hello", false, "2024-01-02T03:04:05.000Z", "task", "personal",
          "medium", some "2024-03-05", "", 0, "user_1"⟩] ∧
    JObj.keys (rowToJObj ⟨1, "hello", false, "2024-01-02T03:04:05.000Z", "task", "personal",
          "medium", some "2024-03-05", "", 0, "user_1"⟩) ≠ stableFields ∧
    (rowToJObj ⟨1, "hello", false, "2024-01-02T03:04:05.000Z", "task", "personal",
          "medium", some "2024-03-05", "", 0, "user_1"⟩).get "due_date"
      = some (JVal.jstr "2024-03-05T00:00:00.000Z") ∧
    isDateText "2024-03-05T00:00:00.000Z" = false := by
  refine ⟨by decide, by decide, by decide, by decide⟩

theorem applyBulkOne_eq_anyUser (userId : String) (bi : BulkItem) (tbl : List Row)
    (h : ∀ r ∈ tbl, r.user_id = userId) :
    applyBulkOne userId bi tbl = applyBulkOneAnyUser bi tbl := by
  unfold applyBulkOne applyBulkOneAnyUser
  apply List.map_congr_left
  intro r hr
  simp [h r hr]

theorem user_id_applyBulkOneAnyUser (userId : String) (bi : BulkItem)
    (tbl : List Row) (h : ∀ r ∈ tbl, r.user_id = userId) :
    ∀ r ∈ applyBulkOneAnyUser bi tbl, r.user_id = userId := by
  intro r hr
  obtain ⟨x, hx, rfl⟩ := List.mem_map.mp hr
  by_cases hc : (x.id == bi.id) = true
  · simp only [hc, if_true]
    simpa [applyUpdate] using h x hx
  · simp only [hc, if_false]
    exact h x hx

theorem bulkGo_equiv (userId : String) (fail : Nat → Bool)
    (hnf : ∀ k, fail k = false) :
    ∀ (body : List BulkItem) (k : Nat) (tbl : List Row),
      (∀ r ∈ tbl, r.user_id = userId) →
      bulkPgGo userId fail body k tbl = some (bulkDrizzleGo fail body k tbl).1 ∧
      (bulkDrizzleGo fail body k tbl).2 = true := by
  intro body
  induction body with
  | nil => intro k tbl _; simp [bulkPgGo, bulkDrizzleGo]
  | cons bi rest ih =>
    intro k tbl hown
    simp only [bulkPgGo, bulkDrizzleGo, hnf k, Bool.false_eq_true, if_false]
    rw [applyBulkOne_eq_anyUser userId bi tbl hown]
    exact ih (k + 1) (applyBulkOneAnyUser bi tbl)
      (user_id_applyBulkOneAnyUser userId bi tbl hown)

/-- Claim C5 (amended): on failure-free executions over a table fully owned
by the requesting caller, the transactional pg bulk-update route and the
un-transactional drizzle route produce the same final table state and the
same response; they are not equivalent in general — a mid-sequence failure
separates them (see the counterexample). -/
theorem bulk_variants_agree (userId : String) (fail : Nat → Bool)
    (body : List BulkItem) (tbl : List Row)
    (hnf : ∀ k, fail k = false) (hown : ∀ r ∈ tbl, r.user_id = userId) :
    bulkUpdatePg userId fail body tbl = bulkUpdateDrizzle fail body tbl := by
  obtain ⟨h1, h2⟩ := bulkGo_equiv userId fail hnf body 0 tbl hown
  rcases hgo : bulkDrizzleGo fail body 0 tbl with ⟨t, ok⟩
  rw [hgo] at h1 h2
  simp only at h1 h2
  subst h2
  simp [bulkUpdatePg, bulkUpdateDrizzle, h1, hgo]

/-- Witness for `bulk_variants_agree`: a failure-free one-item bulk update
of a one-row table gives identical results in both variants. -/
theorem bulk_variants_agree_witness :
    bulkUpdatePg "user_1" (fun _ => false)
        [⟨1, ⟨"a", false, "task", "personal", "medium", none, none, none⟩⟩]
        [⟨1, "x", false, "t0", "task", "personal", "medium", none, "", 0, "user_1"⟩]
      = bulkUpdateDrizzle (fun _ => false)
        [⟨1, ⟨"a", false, "task", "personal", "medium", none, none, none⟩⟩]
        [⟨1, "x", false, "t0", "task", "personal", "medium", none, "", 0, "user_1"⟩] :=
  bulk_variants_agree "user_1" (fun _ => false) _ _ (fun _ => rfl)
    (by intro r hr; rcases List.mem_singleton.mp hr with rfl; rfl)

/-- Counterexample to claim C5 as stated: with a two-item request whose
second UPDATE throws, the pg variant rolls back to the pre-request table
while the drizzle variant keeps the first update applied — the final table
states differ, so the variants are not behaviorally equivalent. -/
theorem bulk_variants_counterexample :
    bulkUpdatePg "user_1" (fun j => decide (j = 1))
        [⟨1, ⟨"a", false, "task", "personal", "medium", none, none, none⟩⟩,
         ⟨2, ⟨"b", false, "task", "personal", "medium", none, none, none⟩⟩]
        [⟨1, "x", false, "t0", "task", "personal", "medium", none, "", 0, "user_1"⟩,
         ⟨2, "y", false, "t0", "task", "personal", "medium", none, "", 0, "user_1"⟩]
      ≠ bulkUpdateDrizzle (fun j => decide (j = 1))
        [⟨1, ⟨"a", false, "task", "personal", "medium", none, none, none⟩⟩,
         ⟨2, ⟨"b", false, "task", "personal", "medium", none, none, none⟩⟩]
        [⟨1, "x", false, "t0", "task", "personal", "medium", none, "", 0, "user_1"⟩,
         ⟨2, "y", false, "t0", "task", "personal", "medium", none, "", 0, "user_1"⟩] := by
  decide

/-- Claim C8: applying a Reschedule intent to item A changes only A's
dueDate (to the target) and A's order (to one past the current maximum
order of the destination group); every other field of A and every field of
every other item — position included — are unchanged. -/
theorem reschedule_isolation (today iid : Nat) (d : Option Nat)
    (items : List CItem) :
    List.Forall₂ (fun old new =>
      (old.id ≠ iid → new = old) ∧
      (old.id = iid →
        new.dueDate = d ∧
        new.order = maxOrderInGroup today (destKey today d)
          (items.filter (fun x => !(x.id == iid))) + 1 ∧
        new.id = old.id ∧ new.text = old.text ∧ new.completed = old.completed ∧
        new.type = old.type ∧ new.category = old.category ∧
        new.priority = old.priority ∧ new.notes = old.notes))
      items (reschedule today iid d items) := by
  unfold reschedule
  rw [List.forall₂_map_right_iff]
  rw [List.forall₂_same]
  intro it _
  constructor
  · intro hne
    simp [hne]
  · intro heq
    simp [heq]

/-- Witness for `reschedule_isolation` on a two-item store. -/
theorem reschedule_isolation_witness :
    List.Forall₂ (fun old new =>
      (old.id ≠ 1 → new = old) ∧
      (old.id = 1 →
        new.dueDate = some 12 ∧
        new.order = maxOrderInGroup 10 (destKey 10 (some 12))
          ([⟨1, "a", false, "task", "personal", "medium", none, "", 0⟩,
            ⟨2, "b", false, "task", "personal", "medium", some 12, "", 4⟩].filter
            (fun x => !(x.id == 1))) + 1 ∧
        new.id = old.id ∧ new.text = old.text ∧ new.completed = old.completed ∧
        new.type = old.type ∧ new.category = old.category ∧
        new.priority = old.priority ∧ new.notes = old.notes))
      [⟨1, "a", false, "task", "personal", "medium", none, "", 0⟩,
       ⟨2, "b", false, "task", "personal", "medium", some 12, "", 4⟩]
      (reschedule 10 1 (some 12)
        [⟨1, "a", false, "task", "personal", "medium", none, "", 0⟩,
         ⟨2, "b", false, "task", "personal", "medium", some 12, "", 4⟩]) :=
  reschedule_isolation 10 1 (some 12)
    [⟨1, "a", false, "task", "personal", "medium", none, "", 0⟩,
     ⟨2, "b", false, "task", "personal", "medium", some 12, "", 4⟩]

theorem dueDateOf_map_set (iid : Nat) (d : Option Nat) (g : CItem → CItem)
    (hg : ∀ it, (g it).id = it.id) (hd : ∀ it, it.id = iid → (g it).dueDate = d) :
    ∀ l : List CItem, (∃ it ∈ l, it.id = iid) →
      dueDateOf iid (l.map g) = some d := by
  intro l
  induction l with
  | nil => rintro ⟨it, h, _⟩; exact absurd h (List.not_mem_nil it)
  | cons a l ih =>
    rintro ⟨it, hmem, hid⟩
    by_cases ha : a.id = iid
    · have hpa : ((g a).id == iid) = true := by simp [hg a, ha]
      unfold dueDateOf
      simp only [List.map_cons]
      rw [show List.find? (fun x => x.id == iid) (g a :: List.map g l) = some (g a)
        from List.find?_cons_of_pos _ hpa]
      simp [hd a ha]
    · have hpa : ¬(((g a).id == iid) = true) := by simp [hg a, ha]
      have hex : ∃ it ∈ l, it.id = iid := by
        rcases List.mem_cons.mp hmem with rfl | hmem'
        · exact absurd hid ha
        · exact ⟨it, hmem', hid⟩
      have := ih hex
      unfold dueDateOf at this ⊢
      simp only [List.map_cons]
      rw [show List.find? (fun x => x.id == iid) (g a :: List.map g l)
          = List.find? (fun x => x.id == iid) (List.map g l)
        from List.find?_cons_of_neg _ hpa]
      exact this

theorem dueDateOf_reschedule (today iid : Nat) (d : Option Nat)
    (items : List CItem) (h : ∃ it ∈ items, it.id = iid) :
    dueDateOf iid (reschedule today iid d items) = some d := by
  simp only [reschedule]
  refine dueDateOf_map_set iid d _ ?_ ?_ items h
  · intro it
    by_cases hc : it.id = iid <;> simp [hc]
  · intro it hc
    simp [hc]

theorem exists_id_reschedule (today iid : Nat) (d : Option Nat)
    {items : List CItem} (h : ∃ it ∈ items, it.id = iid) :
    ∃ it ∈ reschedule today iid d items, it.id = iid := by
  obtain ⟨it, hmem, hid⟩ := h
  simp only [reschedule]
  refine ⟨_, List.mem_map_of_mem _ hmem, ?_⟩
  simp [hid]

theorem deliver_stale_no_effect (iid sq : Nat) (o : Bool) (s : MState)
    (h : latestSeq s.latest iid ≠ sq) : deliver iid sq o s = s := by
  unfold deliver
  rw [if_neg (by simpa using h)]

/-- Claim C4 (amended): after reschedule(A→D1) then reschedule(A→D2) are
issued before either response arrives, delivering both responses in either
order leaves A's dueDate as D2 provided the response carrying the latest
sequence number succeeds; a response whose sequence number is not the
latest issued for the item has no effect at all on the Sync Manager state
(in particular it never triggers a rollback), whatever its outcome. -/
theorem stale_response_immunity (today iid : Nat) (d1 d2 : Option Nat)
    (store : List CItem) (o1 : Bool) :
    (∀ (s : MState) (sq : Nat) (o : Bool),
      latestSeq s.latest iid ≠ sq → deliver iid sq o s = s) ∧
    ((deliver iid 2 true (deliver iid 1 o1
        (issueReschedule today iid d2
          (issueReschedule today iid d1 ⟨store, [], []⟩)))).store
      = reschedule today iid d2 (reschedule today iid d1 store)) ∧
    ((deliver iid 1 o1 (deliver iid 2 true
        (issueReschedule today iid d2
          (issueReschedule today iid d1 ⟨store, [], []⟩)))).store
      = reschedule today iid d2 (reschedule today iid d1 store)) ∧
    ((∃ it ∈ store, it.id = iid) →
      dueDateOf iid (deliver iid 2 true (deliver iid 1 o1
        (issueReschedule today iid d2
          (issueReschedule today iid d1 ⟨store, [], []⟩)))).store = some d2) := by
  have hs1 : issueReschedule today iid d1 ⟨store, [], []⟩
      = ⟨reschedule today iid d1 store, [(iid, 1)], [((iid, 1), store)]⟩ := by
    simp [issueReschedule, latestSeq, setSeq]
  have hs2 : issueReschedule today iid d2
        (issueReschedule today iid d1 ⟨store, [], []⟩)
      = ⟨reschedule today iid d2 (reschedule today iid d1 store), [(iid, 2)],
         [((iid, 2), reschedule today iid d1 store), ((iid, 1), store)]⟩ := by
    rw [hs1]
    simp [issueReschedule, latestSeq, setSeq]
  have hd1 : ∀ o s2eq, s2eq = issueReschedule today iid d2
        (issueReschedule today iid d1 ⟨store, [], []⟩) →
      deliver iid 1 o s2eq = s2eq := by
    intro o s2eq hq
    refine deliver_stale_no_effect iid 1 o s2eq ?_
    rw [hq, hs2]
    simp [latestSeq]
  have hd2 : deliver iid 2 true (issueReschedule today iid d2
        (issueReschedule today iid d1 ⟨store, [], []⟩))
      = issueReschedule today iid d2 (issueReschedule today iid d1 ⟨store, [], []⟩) := by
    rw [hs2]
    simp [deliver, latestSeq]
  refine ⟨fun s sq o => deliver_stale_no_effect iid sq o s, ?_, ?_, ?_⟩
  · rw [hd1 o1 _ rfl, hd2, hs2]
  · rw [hd2, hd1 o1 _ rfl, hs2]
  · intro hex
    rw [hd1 o1 _ rfl, hd2, hs2]
    exact dueDateOf_reschedule today iid d2 _
      (exists_id_reschedule today iid d1 hex)

/-- Witness for `stale_response_immunity` on a one-item store. -/
theorem stale_response_immunity_witness :
    dueDateOf 1 (deliver 1 2 true (deliver 1 1 false
      (issueReschedule 10 1 (some 6)
        (issueReschedule 10 1 (some 5)
          ⟨[⟨1, "a", false, "task", "personal", "medium", none, "", 0⟩], [], []⟩)))).store
      = some (some 6) :=
  (stale_response_immunity 10 1 (some 5) (some 6)
      [⟨1, "a", false, "task", "personal", "medium", none, "", 0⟩] false).2.2.2
    ⟨⟨1, "a", false, "task", "personal", "medium", none, "", 0⟩, by decide, rfl⟩

/-- Counterexample to claim C4 as stated: when the response for the latest
mutation (A→D2, sequence 2) is a failure, the Sync Manager rolls A back to
the pre-mutation snapshot, whose dueDate is D1 — so the final dueDate is
not D2 even though both responses were delivered. -/
theorem stale_response_counterexample :
    dueDateOf 1 (deliver 1 2 false (deliver 1 1 true
      (issueReschedule 10 1 (some 6)
        (issueReschedule 10 1 (some 5)
          ⟨[⟨1, "a", false, "task", "personal", "medium", none, "", 0⟩], [], []⟩)))).store
      = some (some 5) ∧
    (some (some 5) : Option (Option Nat)) ≠ some (some 6) :=
  ⟨by decide, by decide⟩

/-- The spec's order on group keys: `overdue` strictly first, date keys in
chronological order, `nodate` strictly last. -/
def keyLt : GroupKey → GroupKey → Prop
  | GroupKey.overdue, GroupKey.date _ => True
  | GroupKey.overdue, GroupKey.nodate => True
  | GroupKey.date d, GroupKey.date e => d < e
  | GroupKey.date _, GroupKey.nodate => True
  | _, _ => False

theorem key_mkDateGroup (today : Nat) (k : GroupKey) (its : List CItem) :
    (mkDateGroup today k its).key = k := rfl

theorem dateOfKey_eq_some {today : Nat} {it : CItem} {d : Nat} :
    (match groupKeyOf today it with
      | GroupKey.date e => some e
      | _ => none) = some d
    ↔ groupKeyOf today it = GroupKey.date d := by
  cases h : groupKeyOf today it <;> simp

theorem ite_nil_sublist {c : Prop} [Decidable c] (x : α) :
    (if c then [] else [x]).Sublist [x] := by
  split
  · exact List.nil_sublist _
  · exact List.Sublist.refl _

/-- Claim C3: for every item collection and filter set, the Grouping
Engine's group sequence has the overdue group first when non-empty, then
one group per distinct due date with items in ascending chronological
order, then the no-date group last when non-empty (captured by the strict
pairwise order `keyLt` on the emitted keys); every emitted group is
non-empty, and a group key is emitted exactly when some filtered item
carries it. -/
theorem grouping_engine_order (today : Nat) (items : List CItem) (f : Filters) :
    (∀ g ∈ groupAndFilter today items f, g.items ≠ []) ∧
    List.Pairwise keyLt ((groupAndFilter today items f).map DateGroup.key) ∧
    (∀ k, (∃ g ∈ groupAndFilter today items f, g.key = k) ↔
      (∃ it ∈ items.filter (matchesFilters f), groupKeyOf today it = k)) := by
  set fs := items.filter (matchesFilters f) with hfs
  set ov := fs.filter (fun it => groupKeyOf today it == GroupKey.overdue) with hov
  set nd := fs.filter (fun it => groupKeyOf today it == GroupKey.nodate) with hnd
  set ds := sortedDates (fs.filterMap (fun it =>
    match groupKeyOf today it with | GroupKey.date d => some d | _ => none)) with hds
  have hgf : groupAndFilter today items f
      = (if ov.isEmpty then [] else [mkDateGroup today GroupKey.overdue ov]) ++
        ds.map (fun d => mkDateGroup today (GroupKey.date d)
          (fs.filter (fun it => groupKeyOf today it == GroupKey.date d))) ++
        (if nd.isEmpty then [] else [mkDateGroup today GroupKey.nodate nd]) := rfl
  refine ⟨?_, ?_, ?_⟩
  · -- every emitted group is non-empty
    intro g hg
    rw [hgf] at hg
    rcases List.mem_append.mp hg with hg' | hg'
    · rcases List.mem_append.mp hg' with hg2 | hg2
      · by_cases hc : ov.isEmpty
        · rw [if_pos hc] at hg2
          exact absurd hg2 (List.not_mem_nil _)
        · rw [if_neg hc] at hg2
          rcases List.mem_singleton.mp hg2 with rfl
          have hone : ov ≠ [] := fun h => hc (by simp [h])
          simpa [mkDateGroup] using insSortBy_ne_nil hone
      · obtain ⟨d, hd, rfl⟩ := List.mem_map.mp hg2
        obtain ⟨it, hit, hfn⟩ := List.mem_filterMap.mp (mem_sortedDates.mp hd)
        have hkey := dateOfKey_eq_some.mp hfn
        have hmem : it ∈ fs.filter (fun x => groupKeyOf today x == GroupKey.date d) :=
          List.mem_filter.mpr ⟨hit, by simp [hkey]⟩
        simpa [mkDateGroup] using insSortBy_ne_nil (List.ne_nil_of_mem hmem)
    · by_cases hc : nd.isEmpty
      · rw [if_pos hc] at hg'
        exact absurd hg' (List.not_mem_nil _)
      · rw [if_neg hc] at hg'
        rcases List.mem_singleton.mp hg' with rfl
        have hone : nd ≠ [] := fun h => hc (by simp [h])
        simpa [mkDateGroup] using insSortBy_ne_nil hone
  · -- the emitted keys are strictly ordered by keyLt
    have hmid : List.Pairwise keyLt (ds.map GroupKey.date) :=
      List.Pairwise.map GroupKey.date (fun a b h => h) sorted_sortedDates
    have hfull : List.Pairwise keyLt
        (([GroupKey.overdue] ++ ds.map GroupKey.date) ++ [GroupKey.nodate]) := by
      rw [List.pairwise_append]
      refine ⟨?_, List.pairwise_singleton _ _, ?_⟩
      · rw [List.pairwise_append]
        refine ⟨List.pairwise_singleton _ _, hmid, ?_⟩
        intro a ha b hb
        rcases List.mem_singleton.mp ha with rfl
        obtain ⟨d, _, rfl⟩ := List.mem_map.mp hb
        trivial
      · intro a ha b hb
        rcases List.mem_singleton.mp hb with rfl
        rcases List.mem_append.mp ha with ha' | ha'
        · rcases List.mem_singleton.mp ha' with rfl
          trivial
        · obtain ⟨d, _, rfl⟩ := List.mem_map.mp ha'
          trivial
    have hkeys : (groupAndFilter today items f).map DateGroup.key
        = ((if ov.isEmpty then [] else [GroupKey.overdue]) ++ ds.map GroupKey.date) ++
          (if nd.isEmpty then [] else [GroupKey.nodate]) := by
      rw [hgf, List.map_append, List.map_append]
      rw [apply_ite (List.map DateGroup.key), apply_ite (List.map DateGroup.key)]
      simp [key_mkDateGroup, Function.comp]
    rw [hkeys]
    refine hfull.sublist ?_
    exact List.Sublist.append
      (List.Sublist.append (ite_nil_sublist _) (List.Sublist.refl _))
      (ite_nil_sublist _)
  · -- a key is emitted iff some filtered item carries it
    intro k
    constructor
    · rintro ⟨g, hg, rfl⟩
      rw [hgf] at hg
      rcases List.mem_append.mp hg with hg' | hg'
      · rcases List.mem_append.mp hg' with hg2 | hg2
        · by_cases hc : ov.isEmpty
          · rw [if_pos hc] at hg2
            exact absurd hg2 (List.not_mem_nil _)
          · rw [if_neg hc] at hg2
            rcases List.mem_singleton.mp hg2 with rfl
            have hone : ov ≠ [] := fun h => hc (by simp [h])
            obtain ⟨it, hit⟩ := List.exists_mem_of_ne_nil ov hone
            obtain ⟨hitfs, hitov⟩ := List.mem_filter.mp hit
            exact ⟨it, hitfs, by simpa [key_mkDateGroup] using hitov⟩
        · obtain ⟨d, hd, rfl⟩ := List.mem_map.mp hg2
          obtain ⟨it, hit, hfn⟩ := List.mem_filterMap.mp (mem_sortedDates.mp hd)
          exact ⟨it, hit, by rw [key_mkDateGroup]; exact dateOfKey_eq_some.mp hfn⟩
      · by_cases hc : nd.isEmpty
        · rw [if_pos hc] at hg'
          exact absurd hg' (List.not_mem_nil _)
        · rw [if_neg hc] at hg'
          rcases List.mem_singleton.mp hg' with rfl
          have hone : nd ≠ [] := fun h => hc (by simp [h])
          obtain ⟨it, hit⟩ := List.exists_mem_of_ne_nil nd hone
          obtain ⟨hitfs, hitnd⟩ := List.mem_filter.mp hit
          exact ⟨it, hitfs, by simpa [key_mkDateGroup] using hitnd⟩
    · rintro ⟨it, hit, hkey⟩
      rw [hgf]
      cases k with
      | overdue =>
        have hmem : it ∈ ov := List.mem_filter.mpr ⟨hit, by simp [hkey]⟩
        refine ⟨mkDateGroup today GroupKey.overdue ov, ?_, key_mkDateGroup _ _ _⟩
        refine List.mem_append.mpr (Or.inl (List.mem_append.mpr (Or.inl ?_)))
        rw [if_neg (fun hc => List.ne_nil_of_mem hmem (by simpa using hc))]
        exact List.mem_singleton.mpr rfl
      | date d =>
        have hd : d ∈ ds := mem_sortedDates.mpr
          (List.mem_filterMap.mpr ⟨it, hit, dateOfKey_eq_some.mpr hkey⟩)
        refine ⟨mkDateGroup today (GroupKey.date d)
          (fs.filter (fun x => groupKeyOf today x == GroupKey.date d)), ?_,
          key_mkDateGroup _ _ _⟩
        refine List.mem_append.mpr (Or.inl (List.mem_append.mpr (Or.inr ?_)))
        exact List.mem_map.mpr ⟨d, hd, rfl⟩
      | nodate =>
        have hmem : it ∈ nd := List.mem_filter.mpr ⟨hit, by simp [hkey]⟩
        refine ⟨mkDateGroup today GroupKey.nodate nd, ?_, key_mkDateGroup _ _ _⟩
        refine List.mem_append.mpr (Or.inr ?_)
        rw [if_neg (fun hc => List.ne_nil_of_mem hmem (by simpa using hc))]
        exact List.mem_singleton.mpr rfl

/-- Witness for `grouping_engine_order`: three incomplete items due
yesterday, today and tomorrow yield the key sequence
overdue → today → tomorrow. -/
theorem grouping_engine_order_witness :
    (∃ g ∈ groupAndFilter 10
        [⟨1, "a", false, "task", "personal", "medium", some 9, "", 0⟩,
         ⟨2, "b", false, "task", "personal", "medium", some 10, "", 0⟩,
         ⟨3, "c", false, "task", "personal", "medium", some 11, "", 0⟩]
        ⟨none, none, false⟩, g.key = GroupKey.overdue) ∧
    (groupAndFilter 10
        [⟨1, "a", false, "task", "personal", "medium", some 9, "", 0⟩,
         ⟨2, "b", false, "task", "personal", "medium", some 10, "", 0⟩,
         ⟨3, "c", false, "task", "personal", "medium", some 11, "", 0⟩]
        ⟨none, none, false⟩).map DateGroup.key
      = [GroupKey.overdue, GroupKey.date 10, GroupKey.date 11] :=
  ⟨((grouping_engine_order 10
        [⟨1, "a", false, "task", "personal", "medium", some 9, "", 0⟩,
         ⟨2, "b", false, "task", "personal", "medium", some 10, "", 0⟩,
         ⟨3, "c", false, "task", "personal", "medium", some 11, "", 0⟩]
        ⟨none, none, false⟩).2.2 GroupKey.overdue).mpr
      ⟨⟨1, "a", false, "task", "personal", "medium", some 9, "", 0⟩, by decide, by decide⟩,
   by decide⟩
